import Mathlib

/-
Verification of the record-reconciliation core of xcltk (baf/fixref.py).

The Python source operates on raw tab-separated VCF lines.  We embed it
shallowly: strings are Lean `String`s (lists of characters), Python's
one-character `str.split` / `str.join` / slicing / negative indexing /
`int()` parsing are modelled by executable Lean functions below, and the
function `__fix_rec` becomes `fixRec`, the stream driver `__fix_file`
becomes `driverRun` / `fixFile` (with the external pysam FASTA fetch
abstracted as a `lookup` oracle).
-/

namespace Xcltk

/-- Python-style split of a character list on a one-character separator,
keeping empty pieces exactly as CPython `str.split(sep)` does. -/
def splitChar (c : Char) : List Char → List (List Char)
  | [] => [[]]
  | x :: xs =>
    if x == c then [] :: splitChar c xs
    else
      match splitChar c xs with
      | [] => [[x]]
      | p :: ps => (x :: p) :: ps

/-- Python-style join: interleave the separator character between the pieces
(CPython `sep.join(pieces)`). -/
def joinChar (c : Char) : List (List Char) → List Char
  | [] => []
  | [l] => l
  | l :: ls => l ++ c :: joinChar c ls

/-- String wrapper for `splitChar`: Python `s.split(c)` for a one-character
separator `c`. -/
def pySplitC (c : Char) (s : String) : List String :=
  (splitChar c s.data).map String.mk

/-- String wrapper for `joinChar`: Python `c.join(ls)` for a one-character
separator `c`. -/
def pyJoinC (c : Char) (ls : List String) : String :=
  ⟨joinChar c (ls.map String.data)⟩

/-- Python `s[:-1]` (drop the final character; empty stays empty). -/
def dropLastChar (s : String) : String :=
  ⟨s.data.dropLast⟩

/-- Python `s + "\n"`. -/
def pyAppendNL (s : String) : String :=
  ⟨s.data ++ ['\n']⟩

/-- Boolean test that `p` is a prefix of the second list (character lists,
used to implement Python's substring containment operator). -/
def listPrefixEq : List Char → List Char → Bool
  | [], _ => true
  | _ :: _, [] => false
  | a :: as, b :: bs => a == b && listPrefixEq as bs

/-- Boolean test that `sub` occurs contiguously inside the second list. -/
def containsSub (sub : List Char) : List Char → Bool
  | [] => sub.isEmpty
  | b :: bs => listPrefixEq sub (b :: bs) || containsSub sub bs

/-- Python's substring containment `sub in s`. -/
def pyInStr (sub s : String) : Bool :=
  containsSub sub.data s.data

/-- Python list indexing `l[i]`, including negative wrap-around indices;
`none` models the `IndexError` raised when `i` is out of range. -/
def pyIdx? {α : Type} (l : List α) (i : Int) : Option α :=
  if 0 ≤ i then l[i.toNat]?
  else if (-i).toNat ≤ l.length then l[l.length - (-i).toNat]? else none

/-- Value of a list of decimal digit characters. -/
def digitsToNat (ds : List Char) : Nat :=
  ds.foldl (fun a c => a * 10 + (c.toNat - 48)) 0

/-- Strip leading and trailing whitespace, as Python `int()` does before
parsing. -/
def pyStrip (l : List Char) : List Char :=
  ((l.dropWhile Char.isWhitespace).reverse.dropWhile Char.isWhitespace).reverse

/-- Core of Python `int(s)` on the stripped character list: an optional
single sign followed by a nonempty run of decimal digits.  (Underscore
digit separators and non-ASCII digits, which CPython also accepts, are not
modelled.)  `none` models the `ValueError` on any other input. -/
def pyIntCore (l : List Char) : Option Int :=
  match l with
  | [] => none
  | c :: ds =>
    if c == '-' then
      if !ds.isEmpty && ds.all Char.isDigit then some (-(digitsToNat ds : Int)) else none
    else if c == '+' then
      if !ds.isEmpty && ds.all Char.isDigit then some ((digitsToNat ds : Int)) else none
    else if (c :: ds).all Char.isDigit then some ((digitsToNat (c :: ds) : Int)) else none

/-- Python `int(s)`; `none` models the `ValueError` on unparsable input. -/
def pyInt? (s : String) : Option Int :=
  pyIntCore (pyStrip s.data)

/-- Python `l.index(x)` for lists of strings: index of the first occurrence;
`none` models the `ValueError` when `x` is absent. -/
def pyIndex? (l : List String) (x : String) : Option Nat :=
  match l with
  | [] => none
  | a :: as => if a == x then some 0 else (pyIndex? as x).map (· + 1)

/-- Genotype separator choice of `__fix_rec`: `"/"` if it occurs in the GT
value, else `"|"` if that occurs, else error. -/
def chooseSep (gt : String) : Option Char :=
  if pyInStr "/" gt then some '/'
  else if pyInStr "|" gt then some '|'
  else none

/-- Resolution of one genotype index against REF and the comma-separated ALT
list, exactly as in `__fix_rec`: index 0 is the recorded REF, any other
index `i` reads `alt.split(",")[i - 1]` with Python list indexing (`none`
models the caught `IndexError`). -/
def resolveAllele (ref alt : String) (i : Int) : Option String :=
  if i == 0 then some ref
  else pyIdx? (pySplitC ',' alt) (i - 1)

/-- The allele validity test of `__fix_rec`: exactly one character long and
a substring of `"ACGTN"`. -/
def validAllele (s : String) : Bool :=
  (s.length == 1) && pyInStr s "ACGTN"

/-- Reassignment of the two resolved alleles against the true reference
base `ref0`, mirroring the `new_idx1 / new_idx2 / new_alts` block of
`__fix_rec`.  Returns (new index 1, new index 2, rebuilt ALT list). -/
def reassign (ref0 a1 a2 : String) : Nat × Nat × List String :=
  let p := if a1 == ref0 then ((0 : Nat), ([] : List String)) else (1, [a1])
  let q :=
    if a2 == ref0 then ((0 : Nat), p.2)
    else if a2 == a1 then (p.1, p.2)
    else (p.1 + 1, p.2 ++ [a2])
  (p.1, q.1, q.2)

/-- The new ALT field after a fix: the rebuilt list joined by commas, or the
placeholder `"."` when the list is empty. -/
def newAltOf (ref0 a1 a2 : String) : String :=
  let alts := (reassign ref0 a1 a2).2.2
  if alts.isEmpty then "." else pyJoinC ',' alts

/-- The new GT field after a fix: the two reassigned indices joined by the
original separator. -/
def newGTOf (sep : Char) (ref0 a1 a2 : String) : String :=
  pyJoinC sep [Nat.repr (reassign ref0 a1 a2).1, Nat.repr (reassign ref0 a1 a2).2.1]

/-- The GT-fixing core, for an already chosen separator: split GT, parse the
two indices, resolve both alleles, validate them, and build the new ALT and
GT values.  `none` is any of the per-record error exits of `__fix_rec`
after the separator has been found. -/
def fixGTWithSep (sep : Char) (ref0 ref alt gt : String) : Option (String × String) :=
  match pySplitC sep gt with
  | [s1, s2] =>
    match pyInt? s1, pyInt? s2 with
    | some idx1, some idx2 =>
      match resolveAllele ref alt idx1, resolveAllele ref alt idx2 with
      | some a1, some a2 =>
        if validAllele a1 && validAllele a2 then
          some (newAltOf ref0 a1 a2, newGTOf sep ref0 a1 a2)
        else none
      | _, _ => none
    | _, _ => none
  | _ => none

/-- The GT-fixing core of `__fix_rec`: choose the separator, then fix. -/
def fixGT (ref0 ref alt gt : String) : Option (String × String) :=
  match chooseSep gt with
  | none => none
  | some sep => fixGTWithSep sep ref0 ref alt gt

/-- Outcome of `__fix_rec`: running state -1 / 0 / 1 together with the
returned line. -/
inductive FixResult where
  | invalid
  | unchanged (line : String)
  | fixed (line : String)
deriving DecidableEq

/-- Tab-separated fields of a record line, after stripping the trailing
newline: Python `line[:-1].split("\t")`. -/
def recParts (line : String) : List String :=
  pySplitC '\t' (dropLastChar line)

/-- Field `i` of a record line (used only at indices below the parsed
length, where the default is irrelevant). -/
def recField (line : String) (i : Nat) : String :=
  (recParts line).getD i ""

/-- The GT sample value of a record line: locate `"GT"` in the
colon-separated field 8 and read the matching entry of field 9. -/
def recGT (line : String) : Option String :=
  match pyIndex? (pySplitC ':' (recField line 8)) "GT" with
  | none => none
  | some i => (pySplitC ':' (recField line 9))[i]?

/-- The rewritten field list on a fix: `parts[2] = parts[5] = parts[7] = "."`,
`parts[3] = ref0`, `parts[4] = new_alt`, `parts[8] = "GT"`,
`parts[9] = new_gt` (only reached with at least 10 fields). -/
def fixedParts (parts : List String) (ref0 nA nG : String) : List String :=
  (((((((parts.set 2 ".").set 5 ".").set 7 ".").set 3 ref0).set 4 nA).set 8 "GT").set 9 nG)

/-- Shallow embedding of `__fix_rec nr ref0 line` (the record number `nr`
only feeds diagnostics and is dropped).  `invalid` is the `(-1, None)`
return, `unchanged line` the `(0, line)` return, and `fixed l` the
`(1, new_vcf_line)` return. -/
def fixRec (ref0 line : String) : FixResult :=
  let parts := recParts line
  if parts.length < 10 then FixResult.invalid
  else
    let ref := parts.getD 3 ""
    let alt := parts.getD 4 ""
    let fmt := parts.getD 8 ""
    let fval := parts.getD 9 ""
    if ref == ref0 then FixResult.unchanged line
    else
      match pyIndex? (pySplitC ':' fmt) "GT" with
      | none => FixResult.invalid
      | some gtIdx =>
        match (pySplitC ':' fval)[gtIdx]? with
        | none => FixResult.invalid
        | some gt =>
          match fixGT ref0 ref alt gt with
          | none => FixResult.invalid
          | some pr =>
            FixResult.fixed (pyAppendNL (pyJoinC '\t' (fixedParts parts ref0 pr.1 pr.2)))

/-- Per-line result of the `__fix_file` loop body: `fatal` is the explicit
`return(-1)` on a comment or blank line inside the data section, `crash`
is an uncaught exception (unpacking fewer than two columns, an unparsable
position, or a failing FASTA fetch), and `ok w f m` is a completed
iteration that wrote `w` and classified the record as fixed / matched. -/
inductive StepResult where
  | fatal
  | crash
  | ok (written : Option String) (isFix : Bool) (isMatch : Bool)
deriving DecidableEq

/-- One iteration of the `__fix_file` data loop.  `lookup chr p` abstracts
`FASTA.fetch(chr, p - 1, p)`; `none` models a raised lookup error. -/
def driverStep (lookup : String → Int → Option String) (line : String) : StepResult :=
  match line.data.head? with
  | none => StepResult.crash
  | some c =>
    if c == '\n' || c == '#' then StepResult.fatal
    else
      match pySplitC '\t' line with
      | chr :: pos :: _ =>
        match pyInt? pos with
        | none => StepResult.crash
        | some p =>
          match lookup chr p with
          | none => StepResult.crash
          | some ref0 =>
            match fixRec ref0 line with
            | FixResult.invalid => StepResult.ok none false false
            | FixResult.unchanged l => StepResult.ok (some l) false true
            | FixResult.fixed l => StepResult.ok (some l) true false
      | _ => StepResult.crash

/-- Accumulated driver state: lines written so far and the three counters
`nr` (records processed), `fix_cnt`, `matched_cnt`. -/
structure RunState where
  out : List String
  nr : Nat
  fixCnt : Nat
  matchedCnt : Nat
deriving DecidableEq

/-- Result of the data loop: normal completion, the fatal structural-error
return, or an uncaught exception; each carries the state reached. -/
inductive RunResult where
  | done (st : RunState)
  | fatalError (st : RunState)
  | crashed (st : RunState)
deriving DecidableEq

/-- State update of one completed loop iteration: append the written line
(if any), bump `nr`, and bump the fixed / matched counters. -/
def applyStep (st : RunState) (w : Option String) (f m : Bool) : RunState :=
  ⟨st.out ++ w.toList, st.nr + 1,
    st.fixCnt + (if f then 1 else 0), st.matchedCnt + (if m then 1 else 0)⟩

/-- The data loop of `__fix_file` over the lines after the header block. -/
def driverRun (lookup : String → Int → Option String) :
    List String → RunState → RunResult
  | [], st => RunResult.done st
  | line :: rest, st =>
    match driverStep lookup line with
    | StepResult.fatal => RunResult.fatalError st
    | StepResult.crash => RunResult.crashed st
    | StepResult.ok w f m => driverRun lookup rest (applyStep st w f m)

/-- Number of leading header lines (first character `#`), as counted by the
`nc` loop of `__fix_file`. -/
def countHeader : List String → Nat
  | [] => 0
  | line :: rest => if line.data.head? == some '#' then countHeader rest + 1 else 0

/-- Shallow embedding of `__fix_file`: copy the header block to the output
verbatim, then run the data loop from fresh counters. -/
def fixFile (lookup : String → Int → Option String) (lines : List String) : RunResult :=
  driverRun lookup (List.drop (countHeader lines) lines)
    ⟨List.take (countHeader lines) lines, 0, 0, 0⟩

/-- The malformed-GT conditions of the spec, relative to an ALT field value:
no separator occurs in GT; or GT splits on the chosen separator into three or
more parts; or some part does not parse as an integer; or some part parses
to an index exceeding the number of comma-separated ALT entries. -/
def gtMalformed (alt gt : String) : Prop :=
  chooseSep gt = none ∨
  (∃ sep, chooseSep gt = some sep ∧ 3 ≤ (pySplitC sep gt).length) ∨
  (∃ sep s, chooseSep gt = some sep ∧ s ∈ pySplitC sep gt ∧ pyInt? s = none) ∨
  (∃ sep s i, chooseSep gt = some sep ∧ s ∈ pySplitC sep gt ∧ pyInt? s = some i ∧
    ((pySplitC ',' alt).length : Int) < i)

/-! Basic facts about the Python-style split and join. -/

theorem splitChar_ne_nil (c : Char) (l : List Char) : splitChar c l ≠ [] := by
  induction l with
  | nil => simp [splitChar]
  | cons x xs ih =>
    simp only [splitChar]
    split
    · simp
    · split
      · simp
      · simp

theorem splitChar_eq_single (c : Char) (l : List Char) (h : c ∉ l) :
    splitChar c l = [l] := by
  induction l with
  | nil => rfl
  | cons x xs ih =>
    have hx : (x == c) = false := by
      simp only [beq_eq_false_iff_ne]
      intro hxc
      exact h (hxc ▸ List.mem_cons_self x xs)
    have hxs := ih (fun hm => h (List.mem_cons_of_mem x hm))
    simp [splitChar, hx, hxs]

theorem splitChar_append (c : Char) (l m : List Char) (h : c ∉ l) :
    splitChar c (l ++ c :: m) = l :: splitChar c m := by
  induction l with
  | nil => simp [splitChar]
  | cons x xs ih =>
    have hx : (x == c) = false := by
      simp only [beq_eq_false_iff_ne]
      intro hxc
      exact h (hxc ▸ List.mem_cons_self x xs)
    have hxs := ih (fun hm => h (List.mem_cons_of_mem x hm))
    simp [splitChar, hx, hxs]

theorem splitChar_joinChar (c : Char) (ls : List (List Char)) (hne : ls ≠ [])
    (h : ∀ p ∈ ls, c ∉ p) : splitChar c (joinChar c ls) = ls := by
  induction ls with
  | nil => exact absurd rfl hne
  | cons l ls ih =>
    cases ls with
    | nil => exact splitChar_eq_single c l (h l (List.mem_cons_self l []))
    | cons l2 ls2 =>
      have h1 : c ∉ l := h l (List.mem_cons_self l _)
      have hrec := ih (by simp) (fun p hp => h p (List.mem_cons_of_mem l hp))
      have hj : joinChar c (l :: l2 :: ls2) = l ++ c :: joinChar c (l2 :: ls2) := rfl
      rw [hj, splitChar_append c l _ h1, hrec]

theorem splitChar_no_sep (c : Char) (l : List Char) :
    ∀ p ∈ splitChar c l, c ∉ p := by
  induction l with
  | nil =>
    intro p hp
    simp [splitChar] at hp
    simp [hp]
  | cons x xs ih =>
    intro p hp
    simp only [splitChar] at hp
    by_cases hx : (x == c) = true
    · rw [if_pos hx] at hp
      rcases List.mem_cons.mp hp with h | h
      · simp [h]
      · exact ih p h
    · rw [if_neg hx] at hp
      have hxc : x ≠ c := by
        intro he
        exact hx (by simp [he])
      rcases hq : splitChar c xs with _ | ⟨q, qs⟩
      · exact absurd hq (splitChar_ne_nil c xs)
      · rw [hq] at hp
        rcases List.mem_cons.mp hp with h | h
        · subst h
          intro hm
          rcases List.mem_cons.mp hm with h | h
          · exact hxc h.symm
          · exact ih q (hq ▸ List.mem_cons_self q qs) h
        · exact ih p (hq ▸ List.mem_cons_of_mem q h)

theorem joinChar_not_mem (c x : Char) (ls : List (List Char)) (hx : x ≠ c)
    (h : ∀ p ∈ ls, x ∉ p) : x ∉ joinChar c ls := by
  induction ls with
  | nil => simp [joinChar]
  | cons l ls ih =>
    cases ls with
    | nil => exact h l (List.mem_cons_self l [])
    | cons l2 ls2 =>
      have hj : joinChar c (l :: l2 :: ls2) = l ++ c :: joinChar c (l2 :: ls2) := rfl
      rw [hj]
      intro hm
      rcases List.mem_append.mp hm with hm | hm
      · exact h l (List.mem_cons_self l _) hm
      · rcases List.mem_cons.mp hm with hm | hm
        · exact hx hm
        · exact ih (fun p hp => h p (List.mem_cons_of_mem l hp)) hm

theorem string_mk_data (s : String) : String.mk s.data = s := rfl

theorem pySplitC_ne_nil (c : Char) (s : String) : pySplitC c s ≠ [] := by
  intro h
  exact splitChar_ne_nil c s.data (by simpa [pySplitC] using h)

theorem pySplitC_no_sep (c : Char) (s : String) :
    ∀ t ∈ pySplitC c s, c ∉ t.data := by
  intro t ht
  rcases List.mem_map.mp ht with ⟨p, hp, hpt⟩
  subst hpt
  exact splitChar_no_sep c s.data p hp

theorem pySplitC_pyJoinC (c : Char) (ls : List String) (hne : ls ≠ [])
    (h : ∀ s ∈ ls, c ∉ s.data) : pySplitC c (pyJoinC c ls) = ls := by
  unfold pySplitC pyJoinC
  have hmapne : ls.map String.data ≠ [] := by
    simpa using hne
  have hall : ∀ p ∈ ls.map String.data, c ∉ p := by
    intro p hp
    rcases List.mem_map.mp hp with ⟨s, hs, hsp⟩
    subst hsp
    exact h s hs
  rw [show (String.mk (joinChar c (ls.map String.data))).data
        = joinChar c (ls.map String.data) from rfl]
  rw [splitChar_joinChar c _ hmapne hall, List.map_map]
  have hid : (String.mk ∘ String.data) = id := funext string_mk_data
  rw [hid, List.map_id]

theorem pySplitC_single (c : Char) (s : String) (h : c ∉ s.data) :
    pySplitC c s = [s] := by
  unfold pySplitC
  rw [splitChar_eq_single c s.data h]
  rw [List.map_singleton, string_mk_data]

/-! Facts about list update and lookup used to track the rewritten fields. -/

theorem getD_set_self {α : Type} (l : List α) (i : Nat) (a d : α)
    (h : i < l.length) : (l.set i a).getD i d = a := by
  induction l generalizing i with
  | nil => simp at h
  | cons x xs ih =>
    cases i with
    | zero => rfl
    | succ n => exact ih n (by simpa using h)

theorem getD_set_ne {α : Type} (l : List α) {i j : Nat} (a d : α) (h : i ≠ j) :
    (l.set i a).getD j d = l.getD j d := by
  induction l generalizing i j with
  | nil => rfl
  | cons x xs ih =>
    cases i with
    | zero =>
      cases j with
      | zero => exact absurd rfl h
      | succ n => rfl
    | succ m =>
      cases j with
      | zero => rfl
      | succ n => exact ih (fun he => h (by rw [he]))

theorem mem_set_cases {α : Type} {l : List α} {i : Nat} {a x : α}
    (h : x ∈ l.set i a) : x ∈ l ∨ x = a := by
  induction l generalizing i with
  | nil => simp [List.set] at h
  | cons y ys ih =>
    cases i with
    | zero =>
      rcases List.mem_cons.mp h with h | h
      · exact Or.inr h
      · exact Or.inl (List.mem_cons_of_mem y h)
    | succ n =>
      rcases List.mem_cons.mp h with h | h
      · exact Or.inl (h ▸ List.mem_cons_self y ys)
      · rcases ih h with h | h
        · exact Or.inl (List.mem_cons_of_mem y h)
        · exact Or.inr h

/-! Character-level facts about valid alleles. -/

theorem listPrefixEq_single (ch b : Char) (bs : List Char) :
    listPrefixEq [ch] (b :: bs) = (ch == b) := by
  simp [listPrefixEq]

theorem containsSub_singleton {ch : Char} {l : List Char}
    (h : containsSub [ch] l = true) : ch ∈ l := by
  induction l with
  | nil => simp [containsSub] at h
  | cons b bs ih =>
    simp only [containsSub, listPrefixEq_single, Bool.or_eq_true] at h
    rcases h with h | h
    · exact (eq_of_beq h) ▸ List.mem_cons_self b bs
    · exact List.mem_cons_of_mem b (ih h)

theorem validAllele_eq {s : String} (h : validAllele s = true) :
    s = "A" ∨ s = "C" ∨ s = "G" ∨ s = "T" ∨ s = "N" := by
  unfold validAllele at h
  simp only [Bool.and_eq_true] at h
  obtain ⟨hlen, hsub⟩ := h
  have hlen1 : s.data.length = 1 := by
    have h1 : s.length = 1 := by simpa using hlen
    exact h1
  rcases List.length_eq_one.mp hlen1 with ⟨ch, hch⟩
  have hmem : ch ∈ ("ACGTN" : String).data := by
    apply containsSub_singleton
    have h2 : containsSub s.data ("ACGTN" : String).data = true := hsub
    rwa [hch] at h2
  have hchars : ("ACGTN" : String).data = ['A', 'C', 'G', 'T', 'N'] := rfl
  rw [hchars] at hmem
  have hs : s = String.mk [ch] := by
    rw [← hch]
  have hd : ch = 'A' ∨ ch = 'C' ∨ ch = 'G' ∨ ch = 'T' ∨ ch = 'N' := by
    simpa using hmem
  rcases hd with h5 | h5 | h5 | h5 | h5
  · exact Or.inl (by rw [hs, h5])
  · exact Or.inr (Or.inl (by rw [hs, h5]))
  · exact Or.inr (Or.inr (Or.inl (by rw [hs, h5])))
  · exact Or.inr (Or.inr (Or.inr (Or.inl (by rw [hs, h5]))))
  · exact Or.inr (Or.inr (Or.inr (Or.inr (by rw [hs, h5]))))

theorem validAllele_mem {s : String} (h : validAllele s = true) {c : Char}
    (hmem : c ∈ s.data) : c ∈ ['A', 'C', 'G', 'T', 'N'] := by
  rcases validAllele_eq h with h5 | h5 | h5 | h5 | h5 <;> subst h5 <;>
    (rw [List.mem_singleton.mp hmem]; decide)

theorem validAllele_not_mem {s : String} (h : validAllele s = true) {c : Char}
    (hc : c ∉ ['A', 'C', 'G', 'T', 'N']) : c ∉ s.data := by
  intro hmem
  exact hc (validAllele_mem h hmem)

/-! Facts about the separator choice and the index reassignment. -/

theorem chooseSep_cases {gt : String} {sep : Char} (h : chooseSep gt = some sep) :
    sep = '/' ∨ sep = '|' := by
  unfold chooseSep at h
  split at h
  · exact Or.inl (Option.some.inj h).symm
  · split at h
    · exact Or.inr (Option.some.inj h).symm
    · exact absurd h (by simp)

theorem pyJoinC_single (c : Char) (s : String) : pyJoinC c [s] = s := rfl

theorem reassign_fst_le (ref0 a1 a2 : String) : (reassign ref0 a1 a2).1 ≤ 2 := by
  by_cases b1 : (a1 == ref0) = true <;> simp [reassign, b1]

theorem reassign_snd_le (ref0 a1 a2 : String) : (reassign ref0 a1 a2).2.1 ≤ 2 := by
  by_cases b1 : (a1 == ref0) = true <;> by_cases b2 : (a2 == ref0) = true <;>
    by_cases b3 : (a2 == a1) = true <;> simp [reassign, b1, b2, b3]

theorem reassign_alts_mem {ref0 a1 a2 x : String}
    (h : x ∈ (reassign ref0 a1 a2).2.2) : x = a1 ∨ x = a2 := by
  by_cases b1 : (a1 == ref0) = true <;> by_cases b2 : (a2 == ref0) = true <;>
    by_cases b3 : (a2 == a1) = true <;>
    simp only [reassign, b1, b2, b3, if_true, if_false,
      Bool.not_eq_true] at h <;> simp_all

theorem repr_cases {n : Nat} (h : n ≤ 2) :
    Nat.repr n = "0" ∨ Nat.repr n = "1" ∨ Nat.repr n = "2" := by
  interval_cases n
  · exact Or.inl rfl
  · exact Or.inr (Or.inl rfl)
  · exact Or.inr (Or.inr rfl)

theorem repr_le2_not_mem {n : Nat} (h : n ≤ 2) {c : Char}
    (hc : c ∉ ['0', '1', '2']) : c ∉ (Nat.repr n).data := by
  intro hm
  apply hc
  rcases repr_cases h with h1 | h1 | h1 <;> rw [h1] at hm <;>
    rw [List.mem_singleton.mp hm] <;> decide

theorem pyInt_repr {n : Nat} (h : n ≤ 2) : pyInt? (Nat.repr n) = some (n : Int) := by
  interval_cases n <;> decide

theorem newAltOf_not_mem {ref0 a1 a2 : String} (h1 : validAllele a1 = true)
    (h2 : validAllele a2 = true) {c : Char}
    (hc : c ∉ ['A', 'C', 'G', 'T', 'N', ',', '.']) :
    c ∉ (newAltOf ref0 a1 a2).data := by
  have hc5 : c ∉ ['A', 'C', 'G', 'T', 'N'] := by
    intro hm
    apply hc
    simp only [List.mem_cons, List.mem_singleton] at hm ⊢
    tauto
  by_cases halts : (reassign ref0 a1 a2).2.2.isEmpty = true
  · have hdot : newAltOf ref0 a1 a2 = "." := by
      simp [newAltOf, halts]
    rw [hdot]
    intro hm
    apply hc
    rw [List.mem_singleton.mp hm]
    decide
  · have hjoin : newAltOf ref0 a1 a2 = pyJoinC ',' (reassign ref0 a1 a2).2.2 := by
      simp [newAltOf, halts]
    rw [hjoin]
    unfold pyJoinC
    show c ∉ joinChar ',' _
    apply joinChar_not_mem
    · intro he
      apply hc
      rw [he]
      decide
    · intro p hp
      rcases List.mem_map.mp hp with ⟨s, hs, rfl⟩
      rcases reassign_alts_mem hs with rfl | rfl
      · exact validAllele_not_mem h1 hc5
      · exact validAllele_not_mem h2 hc5

theorem newGTOf_not_mem {sep : Char} {ref0 a1 a2 : String}
    (hsep : sep = '/' ∨ sep = '|') {c : Char}
    (hc : c ∉ ['0', '1', '2', '/', '|']) :
    c ∉ (newGTOf sep ref0 a1 a2).data := by
  have hc3 : c ∉ ['0', '1', '2'] := by
    intro hm
    apply hc
    simp only [List.mem_cons, List.mem_singleton] at hm ⊢
    tauto
  unfold newGTOf pyJoinC
  show c ∉ joinChar sep _
  apply joinChar_not_mem
  · intro he
    apply hc
    rcases hsep with h | h <;> rw [he, h] <;> decide
  · intro p hp
    rcases List.mem_map.mp hp with ⟨s, hs, rfl⟩
    rcases List.mem_cons.mp hs with rfl | hs
    · exact repr_le2_not_mem (reassign_fst_le ref0 a1 a2) hc3
    · rw [List.mem_singleton.mp hs]
      exact repr_le2_not_mem (reassign_snd_le ref0 a1 a2) hc3

theorem newGTOf_split {sep : Char} (ref0 a1 a2 : String)
    (hsep : sep = '/' ∨ sep = '|') :
    pySplitC sep (newGTOf sep ref0 a1 a2)
      = [Nat.repr (reassign ref0 a1 a2).1, Nat.repr (reassign ref0 a1 a2).2.1] := by
  unfold newGTOf
  apply pySplitC_pyJoinC
  · simp
  · intro s hs
    have hsepd : sep ∉ ['0', '1', '2'] := by
      rcases hsep with h | h <;> rw [h] <;> decide
    rcases List.mem_cons.mp hs with rfl | hs
    · exact repr_le2_not_mem (reassign_fst_le ref0 a1 a2) hsepd
    · rw [List.mem_singleton.mp hs]
      exact repr_le2_not_mem (reassign_snd_le ref0 a1 a2) hsepd

theorem reassign_resolve {ref0 a1 a2 : String}
    (h1 : validAllele a1 = true) (h2 : validAllele a2 = true) :
    resolveAllele ref0 (newAltOf ref0 a1 a2) ((reassign ref0 a1 a2).1 : Int) = some a1 ∧
    resolveAllele ref0 (newAltOf ref0 a1 a2) ((reassign ref0 a1 a2).2.1 : Int) = some a2 := by
  have hc1 : ',' ∉ a1.data := validAllele_not_mem h1 (by decide)
  have hc2 : ',' ∉ a2.data := validAllele_not_mem h2 (by decide)
  by_cases b1 : (a1 == ref0) = true
  · have e1 : a1 = ref0 := eq_of_beq b1
    by_cases b2 : (a2 == ref0) = true
    · have e2 : a2 = ref0 := eq_of_beq b2
      constructor <;> simp [reassign, b1, b2, resolveAllele, e1, e2]
    · by_cases b3 : (a2 == a1) = true
      · exact absurd (eq_of_beq b3 ▸ e1 ▸ rfl : a2 = ref0) (fun he => b2 (by simp [he]))
      · have hsplit : pySplitC ',' (newAltOf ref0 a1 a2) = [a2] := by
          have : newAltOf ref0 a1 a2 = a2 := by
            simp [newAltOf, reassign, b1, b2, b3, pyJoinC_single]
          rw [this]
          exact pySplitC_single ',' a2 hc2
        constructor
        · simp [reassign, b1, b2, b3, resolveAllele, e1]
        · simp [reassign, b1, b2, b3, resolveAllele, pyIdx?, hsplit]
  · by_cases b2 : (a2 == ref0) = true
    · have e2 : a2 = ref0 := eq_of_beq b2
      have hsplit : pySplitC ',' (newAltOf ref0 a1 a2) = [a1] := by
        have : newAltOf ref0 a1 a2 = a1 := by
          simp [newAltOf, reassign, b1, b2, pyJoinC_single]
        rw [this]
        exact pySplitC_single ',' a1 hc1
      constructor
      · simp [reassign, b1, b2, resolveAllele, pyIdx?, hsplit]
      · simp [reassign, b1, b2, resolveAllele, e2]
    · by_cases b3 : (a2 == a1) = true
      · have e3 : a2 = a1 := eq_of_beq b3
        have hsplit : pySplitC ',' (newAltOf ref0 a1 a2) = [a1] := by
          have : newAltOf ref0 a1 a2 = a1 := by
            simp [newAltOf, reassign, b1, b2, b3, pyJoinC_single]
          rw [this]
          exact pySplitC_single ',' a1 hc1
        constructor
        · simp [reassign, b1, b2, b3, resolveAllele, pyIdx?, hsplit]
        · rw [e3] at hsplit ⊢
          simp [reassign, b1, resolveAllele, pyIdx?, hsplit]
      · have hsplit : pySplitC ',' (newAltOf ref0 a1 a2) = [a1, a2] := by
          have hne : newAltOf ref0 a1 a2 = pyJoinC ',' [a1, a2] := by
            simp [newAltOf, reassign, b1, b2, b3]
          rw [hne]
          apply pySplitC_pyJoinC
          · simp
          · intro s hs
            rcases List.mem_cons.mp hs with rfl | hs
            · exact hc1
            · rw [List.mem_singleton.mp hs]
              exact hc2
        constructor
        · simp [reassign, b1, b2, b3, resolveAllele, pyIdx?, hsplit]
        · simp [reassign, b1, b2, b3, resolveAllele, pyIdx?, hsplit]

/-! Inversion of the fixing path. -/

theorem fixGT_elim {ref0 ref alt gt : String} {pr : String × String}
    (h : fixGT ref0 ref alt gt = some pr) :
    ∃ sep s1 s2 idx1 idx2 a1 a2,
      chooseSep gt = some sep ∧
      pySplitC sep gt = [s1, s2] ∧
      pyInt? s1 = some idx1 ∧ pyInt? s2 = some idx2 ∧
      resolveAllele ref alt idx1 = some a1 ∧
      resolveAllele ref alt idx2 = some a2 ∧
      validAllele a1 = true ∧ validAllele a2 = true ∧
      pr = (newAltOf ref0 a1 a2, newGTOf sep ref0 a1 a2) := by
  unfold fixGT at h
  split at h
  · exact absurd h (by simp)
  · rename_i sep hcs
    unfold fixGTWithSep at h
    split at h
    · rename_i s1 s2 hsp
      split at h
      · rename_i idx1 idx2 hi1 hi2
        split at h
        · rename_i a1 a2 ha1 ha2
          split at h
          · rename_i hv
            simp only [Bool.and_eq_true] at hv
            exact ⟨sep, s1, s2, idx1, idx2, a1, a2, hcs, hsp, hi1, hi2, ha1, ha2,
              hv.1, hv.2, (Option.some.inj h).symm⟩
          · exact absurd h (by simp)
        · exact absurd h (by simp)
      · exact absurd h (by simp)
    · exact absurd h (by simp)

theorem fixRec_fixed_elim {ref0 line out : String}
    (h : fixRec ref0 line = FixResult.fixed out) :
    ¬ (recParts line).length < 10 ∧
    ∃ gtIdx gt pr,
      ((recParts line).getD 3 "" == ref0) = false ∧
      pyIndex? (pySplitC ':' ((recParts line).getD 8 "")) "GT" = some gtIdx ∧
      (pySplitC ':' ((recParts line).getD 9 ""))[gtIdx]? = some gt ∧
      fixGT ref0 ((recParts line).getD 3 "") ((recParts line).getD 4 "") gt = some pr ∧
      out = pyAppendNL (pyJoinC '\t' (fixedParts (recParts line) ref0 pr.1 pr.2)) := by
  simp only [fixRec] at h
  split at h
  · exact absurd h (by simp)
  · rename_i hlen
    split at h
    · exact absurd h (by simp)
    · rename_i href
      refine ⟨hlen, ?_⟩
      split at h
      · exact absurd h (by simp)
      · rename_i gtIdx hidx
        split at h
        · exact absurd h (by simp)
        · rename_i gt hgt
          split at h
          · exact absurd h (by simp)
          · rename_i pr hfix
            exact ⟨gtIdx, gt, pr, Bool.of_not_eq_true href, hidx, hgt, hfix,
              (FixResult.fixed.inj h).symm⟩

/-- Inversion of the pass-through outcome: it only arises when the recorded
REF equals the true reference base, and returns the input line itself. -/
theorem fixRec_unchanged_elim {ref0 line l : String}
    (h : fixRec ref0 line = FixResult.unchanged l) :
    l = line ∧ ((recParts line).getD 3 "" == ref0) = true := by
  simp only [fixRec] at h
  split at h
  · exact absurd h (by simp)
  · split at h
    · rename_i href
      exact ⟨(FixResult.unchanged.inj h).symm, href⟩
    · split at h
      · exact absurd h (by simp)
      · split at h
        · exact absurd h (by simp)
        · split at h
          · exact absurd h (by simp)
          · exact absurd h (by simp)

/-- Re-parsing the rewritten line recovers exactly the rewritten field list,
provided no rewritten field contains a tab. -/
theorem recParts_fix_out {parts : List String} {ref0 nA nG : String}
    (hlen : ¬ parts.length < 10)
    (hparts : ∀ s ∈ parts, '\t' ∉ s.data)
    (h0 : '\t' ∉ ref0.data) (hA : '\t' ∉ nA.data) (hG : '\t' ∉ nG.data) :
    recParts (pyAppendNL (pyJoinC '\t' (fixedParts parts ref0 nA nG)))
      = fixedParts parts ref0 nA nG := by
  have h1 : recParts (pyAppendNL (pyJoinC '\t' (fixedParts parts ref0 nA nG)))
      = pySplitC '\t' (pyJoinC '\t' (fixedParts parts ref0 nA nG)) := by
    unfold recParts pyAppendNL dropLastChar
    have h2 : (String.mk ((pyJoinC '\t' (fixedParts parts ref0 nA nG)).data ++ ['\n'])).data
        = (pyJoinC '\t' (fixedParts parts ref0 nA nG)).data ++ ['\n'] := rfl
    rw [h2, List.dropLast_concat, string_mk_data]
  rw [h1]
  apply pySplitC_pyJoinC
  · have h3 : (fixedParts parts ref0 nA nG).length = parts.length := by
      simp [fixedParts]
    intro hnil
    rw [hnil] at h3
    simp at h3
    omega
  · intro s hs
    unfold fixedParts at hs
    rcases mem_set_cases hs with hs | rfl
    · rcases mem_set_cases hs with hs | rfl
      · rcases mem_set_cases hs with hs | rfl
        · rcases mem_set_cases hs with hs | rfl
          · rcases mem_set_cases hs with hs | rfl
            · rcases mem_set_cases hs with hs | rfl
              · rcases mem_set_cases hs with hs | rfl
                · exact hparts s hs
                · decide
              · decide
            · decide
          · exact h0
        · exact hA
      · decide
    · exact hG

/-- The individual fields of the rewritten field list. -/
theorem fixedParts_getD (parts : List String) (ref0 nA nG : String)
    (hlen : ¬ parts.length < 10) :
    (fixedParts parts ref0 nA nG).getD 0 "" = parts.getD 0 "" ∧
    (fixedParts parts ref0 nA nG).getD 1 "" = parts.getD 1 "" ∧
    (fixedParts parts ref0 nA nG).getD 2 "" = "." ∧
    (fixedParts parts ref0 nA nG).getD 3 "" = ref0 ∧
    (fixedParts parts ref0 nA nG).getD 4 "" = nA ∧
    (fixedParts parts ref0 nA nG).getD 5 "" = "." ∧
    (fixedParts parts ref0 nA nG).getD 6 "" = parts.getD 6 "" ∧
    (fixedParts parts ref0 nA nG).getD 7 "" = "." ∧
    (fixedParts parts ref0 nA nG).getD 8 "" = "GT" ∧
    (fixedParts parts ref0 nA nG).getD 9 "" = nG := by
  unfold fixedParts
  have hL : ∀ (l : List String) (i : Nat) (a : String),
      (l.set i a).length = l.length := by
    intro l i a
    simp
  refine ⟨?_, ?_, ?_, ?_, ?_, ?_, ?_, ?_, ?_, ?_⟩
  · rw [getD_set_ne _ _ _ (by omega), getD_set_ne _ _ _ (by omega),
      getD_set_ne _ _ _ (by omega), getD_set_ne _ _ _ (by omega),
      getD_set_ne _ _ _ (by omega), getD_set_ne _ _ _ (by omega),
      getD_set_ne _ _ _ (by omega)]
  · rw [getD_set_ne _ _ _ (by omega), getD_set_ne _ _ _ (by omega),
      getD_set_ne _ _ _ (by omega), getD_set_ne _ _ _ (by omega),
      getD_set_ne _ _ _ (by omega), getD_set_ne _ _ _ (by omega),
      getD_set_ne _ _ _ (by omega)]
  · rw [getD_set_ne _ _ _ (by omega), getD_set_ne _ _ _ (by omega),
      getD_set_ne _ _ _ (by omega), getD_set_ne _ _ _ (by omega),
      getD_set_ne _ _ _ (by omega), getD_set_ne _ _ _ (by omega)]
    exact getD_set_self _ _ _ _ (by omega)
  · rw [getD_set_ne _ _ _ (by omega), getD_set_ne _ _ _ (by omega),
      getD_set_ne _ _ _ (by omega)]
    exact getD_set_self _ _ _ _ (by first | omega | (simp only [List.length_set]; omega))
  · rw [getD_set_ne _ _ _ (by omega), getD_set_ne _ _ _ (by omega)]
    exact getD_set_self _ _ _ _ (by first | omega | (simp only [List.length_set]; omega))
  · rw [getD_set_ne _ _ _ (by omega), getD_set_ne _ _ _ (by omega),
      getD_set_ne _ _ _ (by omega), getD_set_ne _ _ _ (by omega),
      getD_set_ne _ _ _ (by omega)]
    exact getD_set_self _ _ _ _ (by first | omega | (simp only [List.length_set]; omega))
  · rw [getD_set_ne _ _ _ (by omega), getD_set_ne _ _ _ (by omega),
      getD_set_ne _ _ _ (by omega), getD_set_ne _ _ _ (by omega),
      getD_set_ne _ _ _ (by omega), getD_set_ne _ _ _ (by omega),
      getD_set_ne _ _ _ (by omega)]
  · rw [getD_set_ne _ _ _ (by omega), getD_set_ne _ _ _ (by omega),
      getD_set_ne _ _ _ (by omega), getD_set_ne _ _ _ (by omega)]
    exact getD_set_self _ _ _ _ (by first | omega | (simp only [List.length_set]; omega))
  · rw [getD_set_ne _ _ _ (by omega)]
    exact getD_set_self _ _ _ _ (by first | omega | (simp only [List.length_set]; omega))
  · exact getD_set_self _ _ _ _ (by first | omega | (simp only [List.length_set]; omega))

/-- Combined inversion of a successful fix, including the re-parse of the
rewritten output line; the true reference base is assumed tab-free (any
single nucleotide qualifies). -/
theorem fixRec_fixed_main {ref0 line out : String}
    (hfix : fixRec ref0 line = FixResult.fixed out)
    (htab : '\t' ∉ ref0.data) :
    ∃ sep gtIdx gt s1 s2 idx1 idx2 a1 a2,
      ¬ (recParts line).length < 10 ∧
      ((recParts line).getD 3 "" == ref0) = false ∧
      pyIndex? (pySplitC ':' ((recParts line).getD 8 "")) "GT" = some gtIdx ∧
      (pySplitC ':' ((recParts line).getD 9 ""))[gtIdx]? = some gt ∧
      chooseSep gt = some sep ∧
      pySplitC sep gt = [s1, s2] ∧
      pyInt? s1 = some idx1 ∧ pyInt? s2 = some idx2 ∧
      resolveAllele ((recParts line).getD 3 "") ((recParts line).getD 4 "") idx1 = some a1 ∧
      resolveAllele ((recParts line).getD 3 "") ((recParts line).getD 4 "") idx2 = some a2 ∧
      validAllele a1 = true ∧ validAllele a2 = true ∧
      recParts out = fixedParts (recParts line) ref0
        (newAltOf ref0 a1 a2) (newGTOf sep ref0 a1 a2) := by
  obtain ⟨hlen, gtIdx, gt, pr, href, hidx, hgt, hfg, hout⟩ := fixRec_fixed_elim hfix
  obtain ⟨sep, s1, s2, idx1, idx2, a1, a2, hcs, hsp, hi1, hi2, ha1, ha2, hv1, hv2, hpr⟩ :=
    fixGT_elim hfg
  have hsep2 := chooseSep_cases hcs
  have hPmem : ∀ s ∈ recParts line, '\t' ∉ s.data := by
    intro s hs
    exact pySplitC_no_sep '\t' _ s hs
  have hAtab : '\t' ∉ (newAltOf ref0 a1 a2).data :=
    newAltOf_not_mem hv1 hv2 (by decide)
  have hGtab : '\t' ∉ (newGTOf sep ref0 a1 a2).data :=
    newGTOf_not_mem hsep2 (by decide)
  have hp1 : pr.1 = newAltOf ref0 a1 a2 := by rw [hpr]
  have hp2 : pr.2 = newGTOf sep ref0 a1 a2 := by rw [hpr]
  have hre : recParts out = fixedParts (recParts line) ref0
      (newAltOf ref0 a1 a2) (newGTOf sep ref0 a1 a2) := by
    rw [hout, hp1, hp2]
    exact recParts_fix_out hlen hPmem htab hAtab hGtab
  exact ⟨sep, gtIdx, gt, s1, s2, idx1, idx2, a1, a2, hlen, href, hidx, hgt, hcs, hsp,
    hi1, hi2, ha1, ha2, hv1, hv2, hre⟩

/-- Reading the GT value of a line whose field 8 is the single name `GT` and
whose field 9 is colon-free. -/
theorem recGT_of_parts {out nG : String} (h8 : recField out 8 = "GT")
    (h9 : recField out 9 = nG) (hcolon : ':' ∉ nG.data) :
    recGT out = some nG := by
  unfold recGT
  rw [h8, h9, show pySplitC ':' "GT" = ["GT"] from by decide]
  rw [show pyIndex? ["GT"] "GT" = some 0 from by decide]
  rw [pySplitC_single ':' nG hcolon]
  simp

/-- An index strictly above the ALT-list length resolves to nothing. -/
theorem resolveAllele_big {ref alt : String} {i : Int}
    (h : ((pySplitC ',' alt).length : Int) < i) : resolveAllele ref alt i = none := by
  have hlen1 : 1 ≤ (pySplitC ',' alt).length := by
    cases hq : pySplitC ',' alt with
    | nil => exact absurd hq (pySplitC_ne_nil ',' alt)
    | cons a l => simp
  have hi0 : ¬ (i == 0) = true := by
    simp only [beq_iff_eq]
    omega
  unfold resolveAllele
  rw [if_neg hi0]
  unfold pyIdx?
  rw [if_pos (by omega)]
  apply List.getElem?_eq_none
  omega

/-- Any of the malformed-GT conditions makes the GT-fixing core fail. -/
theorem gtMalformed_none {ref0 ref alt gt : String} (h : gtMalformed alt gt) :
    fixGT ref0 ref alt gt = none := by
  rcases h with h | ⟨sep, hcs, hlen⟩ | ⟨sep, s, hcs, hmem, hnone⟩
    | ⟨sep, s, i, hcs, hmem, hsome, hbig⟩
  · simp [fixGT, h]
  · simp only [fixGT, hcs]
    rcases hq : pySplitC sep gt with _ | ⟨x, _ | ⟨y, _ | ⟨z, t⟩⟩⟩
    · simp [fixGTWithSep, hq]
    · simp [fixGTWithSep, hq]
    · rw [hq] at hlen
      simp at hlen
    · simp [fixGTWithSep, hq]
  · simp only [fixGT, hcs]
    rcases hq : pySplitC sep gt with _ | ⟨x, _ | ⟨y, _ | ⟨z, t⟩⟩⟩
    · simp [fixGTWithSep, hq]
    · simp [fixGTWithSep, hq]
    · rw [hq] at hmem
      simp only [fixGTWithSep, hq]
      rcases List.mem_cons.mp hmem with rfl | hmem2
      · rw [hnone]
      · rw [List.mem_singleton.mp hmem2] at hnone
        cases hx : pyInt? x <;> rw [hnone]
    · simp [fixGTWithSep, hq]
  · simp only [fixGT, hcs]
    rcases hq : pySplitC sep gt with _ | ⟨x, _ | ⟨y, _ | ⟨z, t⟩⟩⟩
    · simp [fixGTWithSep, hq]
    · simp [fixGTWithSep, hq]
    · rw [hq] at hmem
      simp only [fixGTWithSep, hq]
      have hres := @resolveAllele_big ref alt i hbig
      rcases List.mem_cons.mp hmem with rfl | hmem2
      · rw [hsome]
        cases hy : pyInt? y
        · rfl
        · simp [hres]
      · rw [List.mem_singleton.mp hmem2] at hsome
        rw [hsome]
        cases hx : pyInt? x with
        | none => rfl
        | some v =>
          cases hv : resolveAllele ref alt v with
          | none => simp [hres, hv]
          | some a => simp [hres, hv]
    · simp [fixGTWithSep, hq]

/-! Claim theorems. -/

/-- C5: for every record whose recorded REF (positional field 4, i.e. index 3)
equals the true reference base, reconcile returns the unchanged outcome and
the output line is byte-identical to the input line, including all fields
beyond position 5. -/
theorem c5_unchanged_verbatim (ref0 line : String)
    (hlen : 10 ≤ (recParts line).length)
    (href : recField line 3 = ref0) :
    fixRec ref0 line = FixResult.unchanged line := by
  simp only [fixRec]
  have h1 : ¬ (recParts line).length < 10 := by omega
  have h2 : ((recParts line).getD 3 "" == ref0) = true := by
    rw [show (recParts line).getD 3 "" = recField line 3 from rfl, href]
    simp
  rw [if_neg h1, if_pos h2]

/-- C5 witness: a concrete record with REF equal to the true reference base
passes through verbatim. -/
theorem c5_witness :
    fixRec "A" "1\t5\t.\tA\tC\t.\t.\t.\tGT\t0/1\n"
      = FixResult.unchanged "1\t5\t.\tA\tC\t.\t.\t.\tGT\t0/1\n" :=
  c5_unchanged_verbatim "A" "1\t5\t.\tA\tC\t.\t.\t.\tGT\t0/1\n" (by decide) (by decide)

/-- C9: a data line that starts with the comment marker or is a bare newline
makes the stream driver stop the whole run with an error, before processing
that line or any later line and with the accumulated state untouched. -/
theorem c9_fatal_stop (line : String) (c : Char)
    (hc : line.data.head? = some c) (hcm : c = '\n' ∨ c = '#') :
    ∀ (lookup : String → Int → Option String) (rest : List String) (st : RunState),
      driverRun lookup (line :: rest) st = RunResult.fatalError st := by
  intro lookup rest st
  have hstep : driverStep lookup line = StepResult.fatal := by
    rcases hcm with h | h <;> subst h <;> simp [driverStep, hc]
  simp [driverRun, hstep]

/-- C9 witness: a concrete run aborts on a comment line inside the data
section with the state reached so far. -/
theorem c9_witness :
    driverRun (fun _ _ => some "A")
      ["#x\n", "1\t2\t.\tA\tC\t.\t.\t.\tGT\t0/1\n"] ⟨["h"], 3, 1, 1⟩
      = RunResult.fatalError ⟨["h"], 3, 1, 1⟩ :=
  c9_fatal_stop "#x\n" '#' (by decide) (Or.inr rfl)
    (fun _ _ => some "A") ["1\t2\t.\tA\tC\t.\t.\t.\tGT\t0/1\n"] ⟨["h"], 3, 1, 1⟩

/-- C10: when the GT value contains both `/` and `|`, the separator choice
deterministically selects `/` and the GT-fixing core proceeds with the
split on `/` (it does not fail on separator grounds). -/
theorem c10_separator_priority (ref0 ref alt gt : String)
    (h1 : pyInStr "/" gt = true) (h2 : pyInStr "|" gt = true) :
    chooseSep gt = some '/' ∧
    fixGT ref0 ref alt gt = fixGTWithSep '/' ref0 ref alt gt := by
  have hcs : chooseSep gt = some '/' := by
    unfold chooseSep
    rw [if_pos h1]
  refine ⟨hcs, ?_⟩
  unfold fixGT
  rw [hcs]

/-- C10 witness: a concrete GT value containing both separators. -/
theorem c10_witness :
    chooseSep "0/1|2" = some '/' ∧
    fixGT "C" "G" "A,T" "0/1|2" = fixGTWithSep '/' "C" "G" "A,T" "0/1|2" :=
  c10_separator_priority "C" "G" "A,T" "0/1|2" (by decide) (by decide)

/-- C4: code behaviour at the failing input — for the record with REF=`G`,
ALT=`A,T`, GT=`-1/0` and true reference base `C`, the GT part `-1` parses as
a negative integer, yet reconcile returns the fixed outcome (Python's
negative list indexing resolves index `-1` to the ALT entry `A`), not the
invalid outcome the claim requires. -/
theorem c4_negative_index_fixed :
    pyInt? "-1" = some (-1) ∧
    fixRec "C" "1\t5\t.\tG\tA,T\t.\t.\t.\tGT\t-1/0\n"
      = FixResult.fixed "1\t5\t.\tC\tA,G\t.\t.\t.\tGT\t1/2\n" ∧
    fixRec "C" "1\t5\t.\tG\tA,T\t.\t.\t.\tGT\t-1/0\n" ≠ FixResult.invalid := by
  refine ⟨by decide, by decide, by decide⟩

/-- C2 counterexample: for the record with REF=`G`, ALT=`A,T`, GT=`1/2` and
true reference base `A`, the new ALT field is `T`, not `G` as the claim
states (the old REF is not carried into the new ALT list, because it is not
one of the two resolved genotype alleles). -/
theorem c2_counterexample :
    fixRec "A" "1\t5\t.\tG\tA,T\t.\t.\t.\tGT\t1/2\n"
      = FixResult.fixed "1\t5\t.\tA\tT\t.\t.\t.\tGT\t0/1\n" ∧
    recField "1\t5\t.\tA\tT\t.\t.\t.\tGT\t0/1\n" 4 ≠ "G" := by
  refine ⟨by decide, by decide⟩

/-- C2 amended: for that same input record the fixed outcome has new REF=`A`,
new ALT=`T` and new GT=`0/1`. -/
theorem c2_amended_example :
    fixRec "A" "1\t5\t.\tG\tA,T\t.\t.\t.\tGT\t1/2\n"
      = FixResult.fixed "1\t5\t.\tA\tT\t.\t.\t.\tGT\t0/1\n" ∧
    recField "1\t5\t.\tA\tT\t.\t.\t.\tGT\t0/1\n" 3 = "A" ∧
    recField "1\t5\t.\tA\tT\t.\t.\t.\tGT\t0/1\n" 4 = "T" ∧
    recGT "1\t5\t.\tA\tT\t.\t.\t.\tGT\t0/1\n" = some "0/1" := by
  refine ⟨by decide, by decide, by decide, by decide⟩

/-- C3 counterexample: on a fix the filter field (positional index 6) is NOT
reset to `.`: a record with FILTER=`PASS` keeps `PASS` in the output (the
code resets indices 2, 5 and 7, i.e. identifier, quality and info). -/
theorem c3_counterexample :
    fixRec "C" "1\t5\trs1\tG\tA\t99\tPASS\tDP=3\tGT:DP\t1/1:5\n"
      = FixResult.fixed "1\t5\t.\tC\tA\t.\tPASS\t.\tGT\t1/1\n" ∧
    recField "1\t5\t.\tC\tA\t.\tPASS\t.\tGT\t1/1\n" 6 ≠ "." := by
  refine ⟨by decide, by decide⟩

/-- C7 counterexample: a data line whose GT value lacks both separators but
whose recorded REF equals the true reference base is returned unchanged (not
invalid), and the driver does write an output line for it. -/
theorem c7_counterexample :
    pyInStr "/" "xyz" = false ∧ pyInStr "|" "xyz" = false ∧
    fixRec "A" "1\t5\t.\tA\tC\t.\t.\t.\tGT\txyz\n"
      = FixResult.unchanged "1\t5\t.\tA\tC\t.\t.\t.\tGT\txyz\n" ∧
    driverRun (fun _ _ => some "A") ["1\t5\t.\tA\tC\t.\t.\t.\tGT\txyz\n"] ⟨[], 0, 0, 0⟩
      = RunResult.done ⟨["1\t5\t.\tA\tC\t.\t.\t.\tGT\txyz\n"], 1, 0, 1⟩ := by
  refine ⟨by decide, by decide, by decide, by decide⟩

/-- C8: reconciliation is idempotent — re-running `fixRec` on the rewritten
output line with the same (tab-free) true reference base returns the
unchanged outcome with that line passed through verbatim. -/
theorem c8_idempotent (ref0 line out : String)
    (hfix : fixRec ref0 line = FixResult.fixed out)
    (htab : '\t' ∉ ref0.data) :
    fixRec ref0 out = FixResult.unchanged out := by
  obtain ⟨sep, gtIdx, gt, s1, s2, idx1, idx2, a1, a2, hlen, href, hidx, hgt, hcs, hsp,
    hi1, hi2, ha1, ha2, hv1, hv2, hre⟩ := fixRec_fixed_main hfix htab
  obtain ⟨g0, g1, g2, g3, g4, g5, g6, g7, g8, g9⟩ :=
    fixedParts_getD (recParts line) ref0
      (newAltOf ref0 a1 a2) (newGTOf sep ref0 a1 a2) hlen
  have hlen2 : ¬ (recParts out).length < 10 := by
    rw [hre]
    have hfl : (fixedParts (recParts line) ref0 (newAltOf ref0 a1 a2)
        (newGTOf sep ref0 a1 a2)).length = (recParts line).length := by
      simp [fixedParts]
    omega
  have h3 : (recParts out).getD 3 "" = ref0 := by
    rw [hre]
    exact g3
  simp only [fixRec]
  rw [if_neg hlen2, if_pos (by rw [h3]; exact beq_self_eq_true ref0)]

/-- C8 witness: a concrete fixed record passes through unchanged on the
second run. -/
theorem c8_witness :
    fixRec "A" "1\t5\t.\tA\tG,C\t.\t.\t.\tGT\t1/2\n"
      = FixResult.unchanged "1\t5\t.\tA\tG,C\t.\t.\t.\tGT\t1/2\n" :=
  c8_idempotent "A" "1\t5\t.\tG\tC\t.\t.\t.\tGT\t0/1\n"
    "1\t5\t.\tA\tG,C\t.\t.\t.\tGT\t1/2\n" (by decide) (by decide)

/-- C3 amended: for every record for which reconcile returns the fixed
outcome (true reference base tab-free), the identifier field (index 2), the
quality field (index 5) and the info field (index 7) of the output record
equal the missing-value placeholder, the filter field (index 6) keeps its
original value, and the format-field-name list equals the single name GT. -/
theorem c3_amended_fields (ref0 line out : String)
    (hfix : fixRec ref0 line = FixResult.fixed out)
    (htab : '\t' ∉ ref0.data) :
    recField out 2 = "." ∧ recField out 5 = "." ∧ recField out 7 = "." ∧
    recField out 6 = recField line 6 ∧ recField out 8 = "GT" := by
  obtain ⟨sep, gtIdx, gt, s1, s2, idx1, idx2, a1, a2, hlen, href, hidx, hgt, hcs, hsp,
    hi1, hi2, ha1, ha2, hv1, hv2, hre⟩ := fixRec_fixed_main hfix htab
  obtain ⟨g0, g1, g2, g3, g4, g5, g6, g7, g8, g9⟩ :=
    fixedParts_getD (recParts line) ref0
      (newAltOf ref0 a1 a2) (newGTOf sep ref0 a1 a2) hlen
  refine ⟨?_, ?_, ?_, ?_, ?_⟩ <;> simp only [recField] <;> rw [hre]
  · exact g2
  · exact g5
  · exact g7
  · exact g6
  · exact g8

/-- C3 witness: the amended field behaviour at a concrete fixed record. -/
theorem c3_witness :
    recField "1\t5\t.\tC\tA\t.\tPASS\t.\tGT\t1/1\n" 2 = "." ∧
    recField "1\t5\t.\tC\tA\t.\tPASS\t.\tGT\t1/1\n" 5 = "." ∧
    recField "1\t5\t.\tC\tA\t.\tPASS\t.\tGT\t1/1\n" 7 = "." ∧
    recField "1\t5\t.\tC\tA\t.\tPASS\t.\tGT\t1/1\n" 6
      = recField "1\t5\trs1\tG\tA\t99\tPASS\tDP=3\tGT:DP\t1/1:5\n" 6 ∧
    recField "1\t5\t.\tC\tA\t.\tPASS\t.\tGT\t1/1\n" 8 = "GT" :=
  c3_amended_fields "C" "1\t5\trs1\tG\tA\t99\tPASS\tDP=3\tGT:DP\t1/1:5\n"
    "1\t5\t.\tC\tA\t.\tPASS\t.\tGT\t1/1\n" (by decide) (by decide)

/-- C1: for every record for which reconcile returns the fixed outcome (true
reference base tab-free), the rewritten REF field equals the true reference
base, and resolving each of the two indices of the new GT against the new
REF/ALT yields exactly the nucleotide that the corresponding original GT
index resolved to against the original REF/ALT. -/
theorem c1_fixed_roundtrip (ref0 line out : String)
    (hfix : fixRec ref0 line = FixResult.fixed out)
    (htab : '\t' ∉ ref0.data) :
    recField out 3 = ref0 ∧
    ∃ (sep : Char) (gt gtNew : String) (i1 i2 j1 j2 : Int),
      recGT line = some gt ∧ chooseSep gt = some sep ∧
      recGT out = some gtNew ∧
      (pySplitC sep gt).map pyInt? = [some i1, some i2] ∧
      (pySplitC sep gtNew).map pyInt? = [some j1, some j2] ∧
      resolveAllele (recField out 3) (recField out 4) j1
        = resolveAllele (recField line 3) (recField line 4) i1 ∧
      resolveAllele (recField out 3) (recField out 4) j2
        = resolveAllele (recField line 3) (recField line 4) i2 := by
  obtain ⟨sep, gtIdx, gt, s1, s2, idx1, idx2, a1, a2, hlen, href, hidx, hgt, hcs, hsp,
    hi1, hi2, ha1, ha2, hv1, hv2, hre⟩ := fixRec_fixed_main hfix htab
  obtain ⟨g0, g1, g2, g3, g4, g5, g6, g7, g8, g9⟩ :=
    fixedParts_getD (recParts line) ref0
      (newAltOf ref0 a1 a2) (newGTOf sep ref0 a1 a2) hlen
  have hsep2 := chooseSep_cases hcs
  have hout3 : recField out 3 = ref0 := by
    simp only [recField]
    rw [hre]
    exact g3
  have hout4 : recField out 4 = newAltOf ref0 a1 a2 := by
    simp only [recField]
    rw [hre]
    exact g4
  have hout8 : recField out 8 = "GT" := by
    simp only [recField]
    rw [hre]
    exact g8
  have hout9 : recField out 9 = newGTOf sep ref0 a1 a2 := by
    simp only [recField]
    rw [hre]
    exact g9
  have hgtline : recGT line = some gt := by
    simp only [recGT, recField]
    rw [hidx]
    exact hgt
  have hgtout : recGT out = some (newGTOf sep ref0 a1 a2) :=
    recGT_of_parts hout8 hout9 (newGTOf_not_mem hsep2 (by decide))
  have hnsplit := newGTOf_split ref0 a1 a2 hsep2
  have hj1 := pyInt_repr (reassign_fst_le ref0 a1 a2)
  have hj2 := pyInt_repr (reassign_snd_le ref0 a1 a2)
  have hrr := @reassign_resolve ref0 a1 a2 hv1 hv2
  refine ⟨hout3, sep, gt, newGTOf sep ref0 a1 a2,
    idx1, idx2, ((reassign ref0 a1 a2).1 : Int), ((reassign ref0 a1 a2).2.1 : Int),
    hgtline, hcs, hgtout, ?_, ?_, ?_, ?_⟩
  · rw [hsp]
    simp [hi1, hi2]
  · rw [hnsplit]
    simp [hj1, hj2]
  · rw [hout3, hout4, hrr.1]
    simp only [recField]
    exact ha1.symm
  · rw [hout3, hout4, hrr.2]
    simp only [recField]
    exact ha2.symm

/-- C1 witness: the round-trip property at a concrete fixed record. -/
theorem c1_witness :
    recField "7\t9\t.\tT\tG\t.\t.\t.\tGT\t0/1\n" 3 = "T" ∧
    ∃ (sep : Char) (gt gtNew : String) (i1 i2 j1 j2 : Int),
      recGT "7\t9\t.\tG\tC,T\t.\t.\t.\tGT\t2/0\n" = some gt ∧
      chooseSep gt = some sep ∧
      recGT "7\t9\t.\tT\tG\t.\t.\t.\tGT\t0/1\n" = some gtNew ∧
      (pySplitC sep gt).map pyInt? = [some i1, some i2] ∧
      (pySplitC sep gtNew).map pyInt? = [some j1, some j2] ∧
      resolveAllele (recField "7\t9\t.\tT\tG\t.\t.\t.\tGT\t0/1\n" 3)
          (recField "7\t9\t.\tT\tG\t.\t.\t.\tGT\t0/1\n" 4) j1
        = resolveAllele (recField "7\t9\t.\tG\tC,T\t.\t.\t.\tGT\t2/0\n" 3)
          (recField "7\t9\t.\tG\tC,T\t.\t.\t.\tGT\t2/0\n" 4) i1 ∧
      resolveAllele (recField "7\t9\t.\tT\tG\t.\t.\t.\tGT\t0/1\n" 3)
          (recField "7\t9\t.\tT\tG\t.\t.\t.\tGT\t0/1\n" 4) j2
        = resolveAllele (recField "7\t9\t.\tG\tC,T\t.\t.\t.\tGT\t2/0\n" 3)
          (recField "7\t9\t.\tG\tC,T\t.\t.\t.\tGT\t2/0\n" 4) i2 :=
  c1_fixed_roundtrip "T" "7\t9\t.\tG\tC,T\t.\t.\t.\tGT\t2/0\n"
    "7\t9\t.\tT\tG\t.\t.\t.\tGT\t0/1\n" (by decide) (by decide)

/-- C6: for every record for which reconcile returns the fixed outcome and
both resolved genotype alleles equal the true reference base, the output ALT
field is exactly the placeholder and the output GT is `0/0` when the
original separator was `/` and `0|0` when it was `|`. -/
theorem c6_both_match_ref (ref0 line out gt : String) (sep : Char)
    (s1 s2 : String) (i1 i2 : Int)
    (hfix : fixRec ref0 line = FixResult.fixed out)
    (hgt : recGT line = some gt)
    (hcs : chooseSep gt = some sep)
    (hsp : pySplitC sep gt = [s1, s2])
    (hp1 : pyInt? s1 = some i1) (hp2 : pyInt? s2 = some i2)
    (hr1 : resolveAllele (recField line 3) (recField line 4) i1 = some ref0)
    (hr2 : resolveAllele (recField line 3) (recField line 4) i2 = some ref0) :
    recField out 4 = "." ∧
    ((sep = '/' ∧ recGT out = some "0/0") ∨ (sep = '|' ∧ recGT out = some "0|0")) := by
  obtain ⟨hlen, gtIdx0, gt0, pr, href, hidx, hgt0, hfg, hout⟩ := fixRec_fixed_elim hfix
  have hgt0' : recGT line = some gt0 := by
    simp only [recGT, recField]
    rw [hidx]
    exact hgt0
  have hgteq : gt0 = gt := Option.some.inj (hgt0'.symm.trans hgt)
  subst hgteq
  obtain ⟨sep0, s1', s2', idx1, idx2, a1, a2, hcs0, hsp0, hi1, hi2, ha1, ha2, hv1, hv2,
    hpr⟩ := fixGT_elim hfg
  have hsepeq : sep0 = sep := Option.some.inj (hcs0.symm.trans hcs)
  subst hsepeq
  obtain ⟨hs1, hs2⟩ : s1' = s1 ∧ s2' = s2 := by
    have hls := hsp0.symm.trans hsp
    simpa using hls
  subst hs1
  subst hs2
  have hidx1 : idx1 = i1 := Option.some.inj (hi1.symm.trans hp1)
  have hidx2 : idx2 = i2 := Option.some.inj (hi2.symm.trans hp2)
  subst hidx1
  subst hidx2
  simp only [recField] at hr1 hr2
  have he1 : a1 = ref0 := Option.some.inj (ha1.symm.trans hr1)
  have he2 : a2 = ref0 := Option.some.inj (ha2.symm.trans hr2)
  rw [he1] at hv1 hpr
  rw [he2] at hv2 hpr
  have htab : '\t' ∉ ref0.data := validAllele_not_mem hv1 (by decide)
  have hsep2 := chooseSep_cases hcs
  have hPmem : ∀ s ∈ recParts line, '\t' ∉ s.data := by
    intro s hs
    exact pySplitC_no_sep '\t' _ s hs
  have hp1' : pr.1 = newAltOf ref0 ref0 ref0 := by rw [hpr]
  have hp2' : pr.2 = newGTOf sep0 ref0 ref0 ref0 := by rw [hpr]
  have hre : recParts out = fixedParts (recParts line) ref0
      (newAltOf ref0 ref0 ref0) (newGTOf sep0 ref0 ref0 ref0) := by
    rw [hout, hp1', hp2']
    exact recParts_fix_out hlen hPmem htab
      (newAltOf_not_mem hv1 hv2 (by decide)) (newGTOf_not_mem hsep2 (by decide))
  obtain ⟨g0, g1, g2, g3, g4, g5, g6, g7, g8, g9⟩ :=
    fixedParts_getD (recParts line) ref0
      (newAltOf ref0 ref0 ref0) (newGTOf sep0 ref0 ref0 ref0) hlen
  have hna : newAltOf ref0 ref0 ref0 = "." := by
    simp [newAltOf, reassign]
  have hng : newGTOf sep0 ref0 ref0 ref0 = pyJoinC sep0 [Nat.repr 0, Nat.repr 0] := by
    simp [newGTOf, reassign]
  have hout4 : recField out 4 = "." := by
    simp only [recField]
    rw [hre, g4, hna]
  have hout8 : recField out 8 = "GT" := by
    simp only [recField]
    rw [hre]
    exact g8
  have hout9 : recField out 9 = newGTOf sep0 ref0 ref0 ref0 := by
    simp only [recField]
    rw [hre]
    exact g9
  have hgtout : recGT out = some (newGTOf sep0 ref0 ref0 ref0) :=
    recGT_of_parts hout8 hout9 (newGTOf_not_mem hsep2 (by decide))
  refine ⟨hout4, ?_⟩
  rcases hsep2 with h | h
  · refine Or.inl ⟨h, ?_⟩
    rw [hgtout, hng, h]
    decide
  · refine Or.inr ⟨h, ?_⟩
    rw [hgtout, hng, h]
    decide

/-- C6 witness: a concrete fixed record whose two genotype alleles both
resolve to the true reference base, with the phased separator. -/
theorem c6_witness :
    recField "2\t8\t.\tC\t.\t.\t.\t.\tGT\t0|0\n" 4 = "." ∧
    (('|' = '/' ∧ recGT "2\t8\t.\tC\t.\t.\t.\t.\tGT\t0|0\n" = some "0/0") ∨
     ('|' = '|' ∧ recGT "2\t8\t.\tC\t.\t.\t.\t.\tGT\t0|0\n" = some "0|0")) :=
  c6_both_match_ref "C" "2\t8\t.\tG\tC\t.\t.\t.\tGT\t1|1\n"
    "2\t8\t.\tC\t.\t.\t.\t.\tGT\t0|0\n" "1|1" '|' "1" "1" 1 1
    (by decide) (by decide) (by decide) (by decide) (by decide) (by decide)
    (by decide) (by decide)

/-- C7 amended: for every data line whose recorded REF differs from the true
reference base and whose GT value is malformed in any of the listed ways,
reconcile returns the invalid outcome; and whenever the driver reaches the
reconciler on such a line (no leading comment marker or newline, parsable
position, successful lookup), it writes no output line for the record and
increments exactly the total processed counter. -/
theorem c7_amended_invalid (ref0 line gt : String)
    (lookup : String → Int → Option String) (chr pos : String) (rest : List String)
    (p : Int) (c : Char)
    (hne : recField line 3 ≠ ref0)
    (hgt : recGT line = some gt)
    (hbad : gtMalformed (recField line 4) gt)
    (hc : line.data.head? = some c) (hcn : c ≠ '\n') (hch : c ≠ '#')
    (hsplit : pySplitC '\t' line = chr :: pos :: rest)
    (hpos : pyInt? pos = some p)
    (hlook : lookup chr p = some ref0) :
    fixRec ref0 line = FixResult.invalid ∧
    ∀ (ls : List String) (st : RunState),
      driverRun lookup (line :: ls) st
        = driverRun lookup ls ⟨st.out, st.nr + 1, st.fixCnt, st.matchedCnt⟩ := by
  have hinv : fixRec ref0 line = FixResult.invalid := by
    cases hres : fixRec ref0 line with
    | invalid => rfl
    | unchanged l =>
      obtain ⟨-, href⟩ := fixRec_unchanged_elim hres
      exact absurd (eq_of_beq href) hne
    | fixed l =>
      obtain ⟨hlen, gtIdx, gt0, pr, href, hidx, hgt0, hfg, houtq⟩ :=
        fixRec_fixed_elim hres
      have hgt0' : recGT line = some gt0 := by
        simp only [recGT, recField]
        rw [hidx]
        exact hgt0
      have hgeq : gt0 = gt := Option.some.inj (hgt0'.symm.trans hgt)
      subst hgeq
      have hnone := @gtMalformed_none ref0 ((recParts line).getD 3 "")
        ((recParts line).getD 4 "") gt0 (by simpa only [recField] using hbad)
      rw [hnone] at hfg
      cases hfg
  refine ⟨hinv, ?_⟩
  intro ls st
  have hstep : driverStep lookup line = StepResult.ok none false false := by
    simp [driverStep, hc, hsplit, hpos, hlook, hinv, hcn, hch]
  simp only [driverRun, hstep]
  have happ : applyStep st none false false
      = ⟨st.out, st.nr + 1, st.fixCnt, st.matchedCnt⟩ := by
    simp [applyStep]
  rw [happ]

/-- C7 witness: a concrete record with REF not matching the true reference
base and a three-part GT is dropped as invalid, with the processed counter
still advancing. -/
theorem c7_witness :
    fixRec "C" "1\t5\t.\tG\tA\t.\t.\t.\tGT\t0/1/2\n" = FixResult.invalid ∧
    driverRun (fun _ _ => some "C") ["1\t5\t.\tG\tA\t.\t.\t.\tGT\t0/1/2\n"] ⟨[], 0, 0, 0⟩
      = RunResult.done ⟨[], 1, 0, 0⟩ := by
  obtain ⟨h1, h2⟩ := c7_amended_invalid "C" "1\t5\t.\tG\tA\t.\t.\t.\tGT\t0/1/2\n" "0/1/2"
    (fun _ _ => some "C") "1" "5" [".", "G", "A", ".", ".", ".", "GT", "0/1/2\n"] 5 '1'
    (by decide) (by decide)
    (Or.inr (Or.inl ⟨'/', by decide, by decide⟩))
    (by decide) (by decide) (by decide) (by decide) (by decide) (by decide)
  refine ⟨h1, ?_⟩
  rw [h2 [] ⟨[], 0, 0, 0⟩]
  rfl

end Xcltk
